import Mathlib

/-!
Verification of `optimize-images.py` (WordPress uploads image optimizer).

The Python source is shallowly embedded: pure arithmetic becomes functions
over `ℤ`/`ℚ`, filesystem-touching routines become explicit state passing over
a small association-list filesystem model, and fallible steps are driven by an
explicit environment of success flags with errors returned as values.
-/

/-- Python's `round` on a rational: round half to even (banker's rounding).
Image dimensions are small integers, so modelling the source's float
arithmetic by exact rational arithmetic is faithful. -/
def pyRound (q : ℚ) : ℤ :=
  if q - (⌊q⌋ : ℚ) < 1/2 then ⌊q⌋
  else if 1/2 < q - (⌊q⌋ : ℚ) then ⌊q⌋ + 1
  else if ⌊q⌋ % 2 = 0 then ⌊q⌋ else ⌊q⌋ + 1

/-- `compute_new_size` from the source: return `(new_w, new_h)` maintaining
aspect ratio, never upscaling.  Mirrors
`if w <= max_w and h <= max_h: return w, h` followed by
`scale = min(max_w / w, max_h / h)`, `new_w = max(1, int(round(w * scale)))`,
`new_h = max(1, int(round(h * scale)))` (the local `scale` is inlined). -/
def compute_new_size (w h max_w max_h : ℤ) : ℤ × ℤ :=
  if w ≤ max_w ∧ h ≤ max_h then (w, h)
  else
    (max 1 (pyRound ((w : ℚ) * min ((max_w : ℚ) / (w : ℚ)) ((max_h : ℚ) / (h : ℚ)))),
     max 1 (pyRound ((h : ℚ) * min ((max_w : ℚ) / (w : ℚ)) ((max_h : ℚ) / (h : ℚ)))))

/-- Filesystem side effects `process_image` can perform (beyond the in-place
atomic save, every other branch writes nothing). -/
inductive FileEffect where
  | copyBak (src bak : String)
  | save (dest : String)
deriving DecidableEq, Repr

/-- `process_image` from the source, at the level the claims speak about: the
image is abstracted to its post-EXIF-transpose size `(w, h)`, and the writes
(`shutil.copy2` to the `.bak` sibling, and the atomic save) are returned as an
effect list together with the result string.  Mirrors the branch structure:
skip when `compute_new_size` returns the size unchanged, report-only under
`--dry-run`, idempotent backup (only when the `.bak` file does not already
exist), then the save. -/
def process_image (path : String) (w h max_w max_h : ℤ)
    (dry_run backup bakExists : Bool) : String × List FileEffect :=
  if compute_new_size w h max_w max_h = (w, h) then ("skip", [])
  else if dry_run then ("dry", [])
  else
    let bakEffects :=
      if backup && !bakExists then [FileEffect.copyBak path (path ++ ".bak")] else []
    ("ok", bakEffects ++ [FileEffect.save path])

/-- One file's metadata and content in the filesystem model.  `mode` is the
`st_mode` value (the save routine masks it with `0o7777`), `content` is an
abstract byte-string identifier. -/
structure FileStat where
  mode : ℕ
  uid : ℕ
  gid : ℕ
  atime : ℕ
  mtime : ℕ
  content : ℕ
deriving DecidableEq, Repr

/-- Filesystem model: an association list from path to file stat. -/
abbrev FS := List (String × FileStat)

def fsLookup : FS → String → Option FileStat
  | [], _ => none
  | (q, st) :: rest, p => if q = p then some st else fsLookup rest p

def fsUpdate : FS → String → (FileStat → FileStat) → FS
  | [], _, _ => []
  | (q, st) :: rest, p, f =>
    if q = p then (q, f st) :: rest else (q, st) :: fsUpdate rest p f

def fsErase (fs : FS) (p : String) : FS := fs.filter (fun e => e.1 != p)

def fsSet (fs : FS) (p : String) (st : FileStat) : FS :=
  if (fsLookup fs p).isSome then fsUpdate fs p (fun _ => st) else (p, st) :: fs

/-- Errors the save routine can raise (one per fallible step). -/
inductive PyErr where
  | statErr
  | saveErr
  | chmodErr
  | utimeErr
  | replaceErr
deriving DecidableEq, Repr

/-- Environment driving the fallible steps of `atomic_save_preserve_metadata`:
which OS calls succeed, whether the process may change ownership (`os.chown`
raises `PermissionError` otherwise, which the source catches and ignores), and
the uid/gid that `tempfile.mkstemp` gives a fresh file. -/
structure SaveEnv where
  saveOk : Bool
  chmodOk : Bool
  utimeOk : Bool
  replaceOk : Bool
  privileged : Bool
  procUid : ℕ
  procGid : ℕ
deriving DecidableEq, Repr

/-- The `finally` block of the source: delete the temp file if it still
exists. -/
def cleanupTemp (fs : FS) (tmp : String) : FS :=
  if (fsLookup fs tmp).isSome then fsErase fs tmp else fs

/-- `atomic_save_preserve_metadata` from the source: stat the destination,
create a temp file in the same directory, save the new content into it, chmod
it to the destination's permission bits (`st_mode & 0o7777`), chown it
(ignoring `PermissionError`), restore the destination's atime/mtime on it, and
atomically rename it onto the destination; on any failure run the `finally`
cleanup and return the original error.  The caller passes a fresh temp name
(`tempfile.mkstemp` guarantees freshness). -/
def atomic_save_preserve_metadata (fs : FS) (dest tmp : String) (newContent : ℕ)
    (env : SaveEnv) : FS × Option PyErr :=
  match fsLookup fs dest with
  | none => (fs, some PyErr.statErr)
  | some st =>
    let fs1 : FS := (tmp, ⟨0o600, env.procUid, env.procGid, 0, 0, 0⟩) :: fs
    if !env.saveOk then (cleanupTemp fs1 tmp, some PyErr.saveErr)
    else
      let fs2 := fsUpdate fs1 tmp (fun s => { s with content := newContent })
      if !env.chmodOk then (cleanupTemp fs2 tmp, some PyErr.chmodErr)
      else
        let fs3 := fsUpdate fs2 tmp (fun s => { s with mode := st.mode % 4096 })
        let fs4 :=
          if env.privileged then
            fsUpdate fs3 tmp (fun s => { s with uid := st.uid, gid := st.gid })
          else fs3
        if !env.utimeOk then (cleanupTemp fs4 tmp, some PyErr.utimeErr)
        else
          let fs5 := fsUpdate fs4 tmp (fun s => { s with atime := st.atime, mtime := st.mtime })
          if !env.replaceOk then (cleanupTemp fs5 tmp, some PyErr.replaceErr)
          else
            match fsLookup fs5 tmp with
            | some tst => (cleanupTemp (fsSet (fsErase fs5 tmp) dest tst) tmp, none)
            | none => (cleanupTemp fs5 tmp, none)

/-- The first step of the save sequence that fails under `env`, in source
order. -/
def firstFailure (env : SaveEnv) : Option PyErr :=
  if !env.saveOk then some PyErr.saveErr
  else if !env.chmodOk then some PyErr.chmodErr
  else if !env.utimeOk then some PyErr.utimeErr
  else if !env.replaceOk then some PyErr.replaceErr
  else none

/-- Python's `str.isdigit` on one character, over the Unicode blocks this
development mentions: ASCII digits, the Latin-1 superscripts, the common
decimal-digit blocks, super/subscript digits, and fullwidth digits.  A
faithful subset of the full Unicode digit property (Python's `isdigit` is
true on all of these, in particular on the superscript digits). -/
def pyIsDigit (c : Char) : Bool :=
  (0x30 ≤ c.toNat && c.toNat ≤ 0x39) ||
  (c.toNat == 0xB2 || c.toNat == 0xB3 || c.toNat == 0xB9) ||
  (0x660 ≤ c.toNat && c.toNat ≤ 0x669) ||
  (0x6F0 ≤ c.toNat && c.toNat ≤ 0x6F9) ||
  (0x966 ≤ c.toNat && c.toNat ≤ 0x96F) ||
  (c.toNat == 0x2070 || (0x2074 ≤ c.toNat && c.toNat ≤ 0x2079)) ||
  (0x2080 ≤ c.toNat && c.toNat ≤ 0x2089) ||
  (0xFF10 ≤ c.toNat && c.toNat ≤ 0xFF19)

/-- Python's `str.isdigit`: nonempty and every character is a digit. -/
def pyStrIsDigit (s : String) : Bool := s.length != 0 && s.data.all pyIsDigit

/-- One directory entry as seen by `Path.iterdir`. -/
structure DirEntry where
  name : String
  isDir : Bool
deriving DecidableEq, Repr

/-- The filter in `iter_year_dirs`:
`child.is_dir() and child.name.isdigit() and len(child.name) == 4`. -/
def yearDirFilter (e : DirEntry) : Bool :=
  e.isDir && pyStrIsDigit e.name && e.name.length == 4

/-- Code-point lexicographic string order, as Python compares `str`. -/
def charListLe : List Char → List Char → Bool
  | [], _ => true
  | _ :: _, [] => false
  | a :: as, b :: bs =>
    if a.toNat < b.toNat then true
    else if b.toNat < a.toNat then false
    else charListLe as bs

def strLe (a b : String) : Bool := charListLe a.data b.data

def insertByName (x : DirEntry) : List DirEntry → List DirEntry
  | [] => [x]
  | y :: ys => if strLe x.name y.name then x :: y :: ys else y :: insertByName x ys

/-- Stable sort by entry name, modelling `sorted(years, key=lambda p: p.name)`. -/
def sortByName : List DirEntry → List DirEntry
  | [] => []
  | x :: xs => insertByName x (sortByName xs)

/-- `iter_year_dirs` from the source: the directory children passing
`yearDirFilter`, sorted ascending by name. -/
def iter_year_dirs (entries : List DirEntry) : List DirEntry :=
  sortByName (entries.filter yearDirFilter)

def isAsciiDigit (c : Char) : Bool := 0x30 ≤ c.toNat && c.toNat ≤ 0x39

/-- The claimed filter, following the spec's words: name consists of exactly
four ASCII digits. -/
def asciiYearDirFilter (e : DirEntry) : Bool :=
  e.isDir && e.name.data.all isAsciiDigit && e.name.length == 4

/-- The claimed behaviour of `iter_year_dirs`, following the spec's words
(four ASCII digits), for comparison against the source definition. -/
def iter_year_dirs_ascii_claim (entries : List DirEntry) : List DirEntry :=
  sortByName (entries.filter asciiYearDirFilter)

/-- The output order property of `sortByName`: each adjacent pair of entries
is in ascending name order. -/
def sortedByName : List DirEntry → Prop
  | [] => True
  | [_] => True
  | x :: y :: r => strLe x.name y.name = true ∧ sortedByName (y :: r)

/-- The per-run counters of `process_tree` (printed as scanned / resized /
skipped / errors). -/
structure Counters where
  total : ℕ
  changed : ℕ
  skipped : ℕ
  errors : ℕ
deriving DecidableEq, Repr

instance : Add Counters :=
  ⟨fun a b => ⟨a.total + b.total, a.changed + b.changed,
               a.skipped + b.skipped, a.errors + b.errors⟩⟩

/-- Counter contribution of one candidate file, mirroring the loop body of
`process_tree`: `total += 1`; results `ok`/`dry` count as changed, any other
result as skipped; an exception counts as an error. -/
def fileOutcomeCounters (r : Except String String) : Counters :=
  match r with
  | Except.ok s => if s = "ok" ∨ s = "dry" then ⟨1, 1, 0, 0⟩ else ⟨1, 0, 1, 0⟩
  | Except.error _ => ⟨1, 0, 0, 1⟩

/-- Error-stream line contribution of one candidate file
(`print(f"[ERR] {p}: {e}", file=sys.stderr)` on an exception). -/
def fileOutcomeErrLines (p : String) (r : Except String String) : List String :=
  match r with
  | Except.ok _ => []
  | Except.error e => ["[ERR] " ++ p ++ ": " ++ e]

/-- `process_tree` from the source over the candidate files in walk order,
each with the outcome of `process_image` on it (`Except.error` when processing
that file raised): fold the per-file counter and error-line contributions. -/
def process_tree : List (String × Except String String) → Counters × List String
  | [] => (⟨0, 0, 0, 0⟩, [])
  | f :: rest =>
    let r := process_tree rest
    (fileOutcomeCounters f.2 + r.1, fileOutcomeErrLines f.1 f.2 ++ r.2)

/-- A resolved absolute path, as its list of components. -/
abbrev PyPath := List String

/-- `Path.name`: the final component, `""` for the root. -/
def pathName (p : PyPath) : String := (p.getLast?).getD ""

/-- The filesystem facts the path resolver consults. -/
structure PathEnv where
  pexists : PyPath → Bool
  isDir : PyPath → Bool

/-- The strict test of the first loop of `resolve_uploads_base`:
`cand.exists() and cand.is_dir() and cand.name == "uploads"`. -/
def strictUploadsOk (env : PathEnv) (c : PyPath) : Bool :=
  env.pexists c && env.isDir c && (pathName c == "uploads")

/-- `resolve_uploads_base` from the source, over an already-resolved input
path: try the path itself, `path/uploads`, `path/wp-content/uploads` under the
strict test, then fall back to the latter two without the name test, else
raise `ValueError`. -/
def resolve_uploads_base (env : PathEnv) (p : PyPath) : Except String PyPath :=
  if strictUploadsOk env p then Except.ok p
  else if strictUploadsOk env (p ++ ["uploads"]) then Except.ok (p ++ ["uploads"])
  else if strictUploadsOk env (p ++ ["wp-content", "uploads"]) then
    Except.ok (p ++ ["wp-content", "uploads"])
  else if env.pexists (p ++ ["uploads"]) && env.isDir (p ++ ["uploads"]) then
    Except.ok (p ++ ["uploads"])
  else if env.pexists (p ++ ["wp-content", "uploads"]) && env.isDir (p ++ ["wp-content", "uploads"]) then
    Except.ok (p ++ ["wp-content", "uploads"])
  else Except.error "Could not find an uploads directory"

/-- The strict first loop of `resolve_uploads_base` alone, without the
fallback branches, for the refinement claim. -/
def resolve_uploads_base_strict (env : PathEnv) (p : PyPath) : Except String PyPath :=
  if strictUploadsOk env p then Except.ok p
  else if strictUploadsOk env (p ++ ["uploads"]) then Except.ok (p ++ ["uploads"])
  else if strictUploadsOk env (p ++ ["wp-content", "uploads"]) then
    Except.ok (p ++ ["wp-content", "uploads"])
  else Except.error "Could not find an uploads directory"

/-- Everything `main` consults: path facts, the children of the resolved
uploads base, and for each year folder the candidate files with their
processing outcomes. -/
structure World where
  env : PathEnv
  children : PyPath → List DirEntry
  outcomes : String → List (String × Except String String)

/-- The all-years loop of `main`: fold each year folder's counters into the
grand totals. -/
def runYears (w : World) (yds : List DirEntry) : Counters :=
  yds.foldl (fun acc yd => acc + (process_tree (w.outcomes yd.name)).1) ⟨0, 0, 0, 0⟩

/-- The parsed CLI arguments `main` dispatches on: `--all-uploads PATH`
(already resolved) or a positional year with the `--uploads` base. -/
structure Args where
  all_uploads : Option PyPath
  year : String
  uploads : PyPath

/-- `main` from the source, reduced to its exit status: in all-years mode,
resolution failure or an empty year-folder list exits 2, otherwise the grand
error count decides between 1 and 0 (falling off the end of `main` is exit 0);
in single-year mode, a missing uploads base or year directory exits 2,
otherwise the run's error count decides between 1 and 0. -/
def mainExit (w : World) (a : Args) : ℕ :=
  match a.all_uploads with
  | some pathArg =>
    match resolve_uploads_base w.env pathArg with
    | Except.error _ => 2
    | Except.ok base =>
      let yds := iter_year_dirs (w.children base)
      if yds = [] then 2
      else if (runYears w yds).errors ≠ 0 then 1 else 0
  | none =>
    let target := a.uploads ++ [a.year]
    if !w.env.pexists a.uploads then 2
    else if !(w.env.pexists target && w.env.isDir target) then 2
    else if (process_tree (w.outcomes a.year)).1.errors ≠ 0 then 1 else 0

theorem pyRound_le_floor_add_one (q : ℚ) : pyRound q ≤ ⌊q⌋ + 1 := by
  unfold pyRound
  split_ifs <;> omega

theorem pyRound_intCast (m : ℤ) : pyRound ((m : ℚ)) = m := by
  unfold pyRound
  simp

theorem pyRound_le_of_le_intCast (q : ℚ) (m : ℤ) (h : q ≤ (m : ℚ)) :
    pyRound q ≤ m := by
  rcases lt_or_eq_of_le (Int.floor_le_floor h) with hlt | heq
  · have hfm : ⌊(m : ℚ)⌋ = m := Int.floor_intCast m
    have h1 : ⌊q⌋ + 1 ≤ m := by omega
    exact le_trans (pyRound_le_floor_add_one q) h1
  · have hm : ⌊q⌋ = m := by rw [heq, Int.floor_intCast]
    have hq : (m : ℚ) ≤ q := by
      calc (m : ℚ) = ((⌊q⌋ : ℤ) : ℚ) := by rw [hm]
      _ ≤ q := Int.floor_le q
    have hqm : q = (m : ℚ) := le_antisymm h hq
    rw [hqm, pyRound_intCast]

/-- C1: when resizing is needed (`w > maxW` or `h > maxH`) on positive inputs,
`compute_new_size` returns dimensions within the bounds and at least 1,
computed as `max 1 (round (w * scale))`, `max 1 (round (h * scale))` with
`scale = min (maxW/w) (maxH/h)`. -/
theorem compute_new_size_within_bounds (w h max_w max_h : ℤ)
    (hw : 0 < w) (hh : 0 < h) (hmw : 0 < max_w) (hmh : 0 < max_h)
    (hneed : max_w < w ∨ max_h < h) :
    (compute_new_size w h max_w max_h).1 ≤ max_w ∧
    (compute_new_size w h max_w max_h).2 ≤ max_h ∧
    1 ≤ (compute_new_size w h max_w max_h).1 ∧
    1 ≤ (compute_new_size w h max_w max_h).2 := by
  have hcond : ¬(w ≤ max_w ∧ h ≤ max_h) := by omega
  unfold compute_new_size
  rw [if_neg hcond]
  have hwQ : (0 : ℚ) < (w : ℚ) := by exact_mod_cast hw
  have hhQ : (0 : ℚ) < (h : ℚ) := by exact_mod_cast hh
  have h1 : (w : ℚ) * min ((max_w : ℚ) / (w : ℚ)) ((max_h : ℚ) / (h : ℚ)) ≤ (max_w : ℚ) := by
    calc (w : ℚ) * min ((max_w : ℚ) / (w : ℚ)) ((max_h : ℚ) / (h : ℚ))
        ≤ (w : ℚ) * ((max_w : ℚ) / (w : ℚ)) :=
          mul_le_mul_of_nonneg_left (min_le_left _ _) (le_of_lt hwQ)
      _ = (max_w : ℚ) := by field_simp
  have h2 : (h : ℚ) * min ((max_w : ℚ) / (w : ℚ)) ((max_h : ℚ) / (h : ℚ)) ≤ (max_h : ℚ) := by
    calc (h : ℚ) * min ((max_w : ℚ) / (w : ℚ)) ((max_h : ℚ) / (h : ℚ))
        ≤ (h : ℚ) * ((max_h : ℚ) / (h : ℚ)) :=
          mul_le_mul_of_nonneg_left (min_le_right _ _) (le_of_lt hhQ)
      _ = (max_h : ℚ) := by field_simp
  refine ⟨max_le (by omega) (pyRound_le_of_le_intCast _ _ h1),
          max_le (by omega) (pyRound_le_of_le_intCast _ _ h2),
          le_max_left _ _, le_max_left _ _⟩

/-- C1 witness: a 4000x2000 image with bounds 2000x1000 needs resizing and the
result respects the bounds. -/
theorem compute_new_size_within_bounds_witness :
    (compute_new_size 4000 2000 2000 1000).1 ≤ 2000 ∧
    (compute_new_size 4000 2000 2000 1000).2 ≤ 1000 ∧
    1 ≤ (compute_new_size 4000 2000 2000 1000).1 ∧
    1 ≤ (compute_new_size 4000 2000 2000 1000).2 :=
  compute_new_size_within_bounds 4000 2000 2000 1000 (by decide) (by decide)
    (by decide) (by decide) (Or.inl (by decide))

/-- C6: `compute_new_size` never upscales: on positive inputs each returned
dimension is at most the corresponding input dimension. -/
theorem compute_new_size_no_upscale (w h max_w max_h : ℤ)
    (hw : 0 < w) (hh : 0 < h) (hmw : 0 < max_w) (hmh : 0 < max_h) :
    (compute_new_size w h max_w max_h).1 ≤ w ∧
    (compute_new_size w h max_w max_h).2 ≤ h := by
  unfold compute_new_size
  by_cases hcond : w ≤ max_w ∧ h ≤ max_h
  · rw [if_pos hcond]
    exact ⟨le_refl w, le_refl h⟩
  · rw [if_neg hcond]
    have hneed : max_w < w ∨ max_h < h := by omega
    have hwQ : (0 : ℚ) < (w : ℚ) := by exact_mod_cast hw
    have hhQ : (0 : ℚ) < (h : ℚ) := by exact_mod_cast hh
    have hs1 : min ((max_w : ℚ) / (w : ℚ)) ((max_h : ℚ) / (h : ℚ)) ≤ 1 := by
      rcases hneed with hlt | hlt
      · refine le_of_lt (lt_of_le_of_lt (min_le_left _ _) ?_)
        exact (div_lt_one hwQ).mpr (by exact_mod_cast hlt)
      · refine le_of_lt (lt_of_le_of_lt (min_le_right _ _) ?_)
        exact (div_lt_one hhQ).mpr (by exact_mod_cast hlt)
    have h1 : (w : ℚ) * min ((max_w : ℚ) / (w : ℚ)) ((max_h : ℚ) / (h : ℚ)) ≤ (w : ℚ) := by
      calc (w : ℚ) * min ((max_w : ℚ) / (w : ℚ)) ((max_h : ℚ) / (h : ℚ))
          ≤ (w : ℚ) * 1 := mul_le_mul_of_nonneg_left hs1 (le_of_lt hwQ)
        _ = (w : ℚ) := mul_one _
    have h2 : (h : ℚ) * min ((max_w : ℚ) / (w : ℚ)) ((max_h : ℚ) / (h : ℚ)) ≤ (h : ℚ) := by
      calc (h : ℚ) * min ((max_w : ℚ) / (w : ℚ)) ((max_h : ℚ) / (h : ℚ))
          ≤ (h : ℚ) * 1 := mul_le_mul_of_nonneg_left hs1 (le_of_lt hhQ)
        _ = (h : ℚ) := mul_one _
    exact ⟨max_le (by omega) (pyRound_le_of_le_intCast _ _ h1),
           max_le (by omega) (pyRound_le_of_le_intCast _ _ h2)⟩

/-- C6 witness: at 4000x2000 with bounds 2000x1000 neither dimension grows. -/
theorem compute_new_size_no_upscale_witness :
    (compute_new_size 4000 2000 2000 1000).1 ≤ 4000 ∧
    (compute_new_size 4000 2000 2000 1000).2 ≤ 2000 :=
  compute_new_size_no_upscale 4000 2000 2000 1000 (by decide) (by decide)
    (by decide) (by decide)

/-- C5: on positive inputs already within the bounds, `compute_new_size`
returns the size unchanged and `process_image` short-circuits with result
`"skip"` and no file writes. -/
theorem process_image_skip_when_within_bounds (path : String) (w h max_w max_h : ℤ)
    (dry_run backup bakExists : Bool)
    (hw : 0 < w) (hh : 0 < h) (hmw : 0 < max_w) (hmh : 0 < max_h)
    (h1 : w ≤ max_w) (h2 : h ≤ max_h) :
    compute_new_size w h max_w max_h = (w, h) ∧
    process_image path w h max_w max_h dry_run backup bakExists = ("skip", []) := by
  have hc : compute_new_size w h max_w max_h = (w, h) := by
    unfold compute_new_size
    rw [if_pos ⟨h1, h2⟩]
  refine ⟨hc, ?_⟩
  unfold process_image
  rw [if_pos hc]

/-- C5 witness: a 100x100 image under bounds 2000x1000 is skipped. -/
theorem process_image_skip_when_within_bounds_witness :
    compute_new_size 100 100 2000 1000 = (100, 100) ∧
    process_image "a.png" 100 100 2000 1000 false true false = ("skip", []) :=
  process_image_skip_when_within_bounds "a.png" 100 100 2000 1000 false true false
    (by decide) (by decide) (by decide) (by decide) (by decide) (by decide)

/-- C7: with `--dry-run` set, `process_image` performs no file write (in
particular no `.bak` copy) whatever the backup flag, and when a resize is
needed it returns result `"dry"`. -/
theorem process_image_dry_run_writes_nothing (path : String) (w h max_w max_h : ℤ)
    (backup bakExists : Bool) :
    (process_image path w h max_w max_h true backup bakExists).2 = [] ∧
    (compute_new_size w h max_w max_h ≠ (w, h) →
      process_image path w h max_w max_h true backup bakExists = ("dry", [])) := by
  unfold process_image
  by_cases hc : compute_new_size w h max_w max_h = (w, h)
  · rw [if_pos hc]
    exact ⟨rfl, fun hn => absurd hc hn⟩
  · rw [if_neg hc]
    simp

/-- C7 witness: a 4000x2000 image under bounds 2000x1000 in dry-run mode with
backups enabled writes nothing and reports `"dry"`. -/
theorem process_image_dry_run_writes_nothing_witness :
    process_image "a.jpg" 4000 2000 2000 1000 true true false = ("dry", []) :=
  (process_image_dry_run_writes_nothing "a.jpg" 4000 2000 2000 1000 true false).2
    (by norm_num [compute_new_size, pyRound])

theorem fsErase_of_lookup_none (fs : FS) (p : String) (h : fsLookup fs p = none) :
    fsErase fs p = fs := by
  induction fs with
  | nil => rfl
  | cons e rest ih =>
    obtain ⟨q, st⟩ := e
    by_cases hq : q = p
    · simp [fsLookup, hq] at h
    · have h2 : fsLookup rest p = none := by simpa [fsLookup, hq] using h
      have ih2 := ih h2
      simp [fsErase, List.filter_cons, hq] at ih2 ⊢
      exact ih2

theorem fsErase_cons_self (tmp : String) (v : FileStat) (fs : FS)
    (h : fsLookup fs tmp = none) : fsErase ((tmp, v) :: fs) tmp = fs := by
  have h2 := fsErase_of_lookup_none fs tmp h
  simp [fsErase, List.filter_cons] at h2 ⊢
  exact h2

theorem cleanupTemp_cons_self (tmp : String) (v : FileStat) (fs : FS)
    (h : fsLookup fs tmp = none) : cleanupTemp ((tmp, v) :: fs) tmp = fs := by
  have h1 : fsLookup ((tmp, v) :: fs) tmp = some v := by simp [fsLookup]
  simp [cleanupTemp, h1, fsErase_cons_self tmp v fs h]

theorem fsUpdate_cons_self (q : String) (st : FileStat) (rest : FS)
    (f : FileStat → FileStat) : fsUpdate ((q, st) :: rest) q f = (q, f st) :: rest := by
  simp [fsUpdate]

theorem fsLookup_fsUpdate_self (fs : FS) (p : String) (f : FileStat → FileStat)
    (st : FileStat) (h : fsLookup fs p = some st) :
    fsLookup (fsUpdate fs p f) p = some (f st) := by
  induction fs with
  | nil => simp [fsLookup] at h
  | cons e rest ih =>
    obtain ⟨q, stq⟩ := e
    by_cases hq : q = p
    · subst hq
      have : stq = st := by simpa [fsLookup] using h
      subst this
      simp [fsUpdate, fsLookup]
    · have h2 : fsLookup rest p = some st := by simpa [fsLookup, hq] using h
      simp [fsUpdate, fsLookup, hq, ih h2]

theorem fsLookup_fsUpdate_ne (fs : FS) (p q : String) (f : FileStat → FileStat)
    (h : q ≠ p) : fsLookup (fsUpdate fs p f) q = fsLookup fs q := by
  induction fs with
  | nil => rfl
  | cons e rest ih =>
    obtain ⟨r, str⟩ := e
    by_cases hr : r = p
    · subst hr
      have hrq : ¬(r = q) := fun hh => h (hh ▸ rfl)
      simp [fsUpdate, fsLookup, hrq]
    · simp [fsUpdate, fsLookup, hr, ih]

/-- C2: if any step of the atomic save fails (the encode/save step, chmod,
utime, or the final rename), the filesystem is left exactly as it was — the
target file keeps its original bytes and metadata and no temp file remains —
and the first failing step's error is returned to the caller. -/
theorem atomic_save_failure_rollback (fs : FS) (dest tmp : String) (newContent : ℕ)
    (env : SaveEnv) (st : FileStat)
    (hdest : fsLookup fs dest = some st) (htmp : fsLookup fs tmp = none)
    (hfail : env.saveOk = false ∨ env.chmodOk = false ∨ env.utimeOk = false ∨
      env.replaceOk = false) :
    atomic_save_preserve_metadata fs dest tmp newContent env = (fs, firstFailure env) ∧
    (firstFailure env).isSome := by
  obtain ⟨so, co, uo, ro, priv, pu, pg⟩ := env
  cases so <;> cases co <;> cases uo <;> cases ro <;> cases priv <;>
    simp_all [atomic_save_preserve_metadata, firstFailure, fsUpdate_cons_self,
      cleanupTemp_cons_self, hdest]

/-- C2 witness: with a one-file filesystem and a failing encode step, the
filesystem is returned unchanged along with the save error. -/
theorem atomic_save_failure_rollback_witness :
    atomic_save_preserve_metadata [("a.jpg", ⟨0o644, 33, 33, 10, 20, 7⟩)] "a.jpg"
        ".imgopt_x" 99 ⟨false, true, true, true, false, 0, 0⟩ =
      ([("a.jpg", ⟨0o644, 33, 33, 10, 20, 7⟩)],
        firstFailure ⟨false, true, true, true, false, 0, 0⟩) ∧
    (firstFailure ⟨false, true, true, true, false, 0, 0⟩).isSome :=
  atomic_save_failure_rollback [("a.jpg", ⟨0o644, 33, 33, 10, 20, 7⟩)] "a.jpg"
    ".imgopt_x" 99 ⟨false, true, true, true, false, 0, 0⟩ ⟨0o644, 33, 33, 10, 20, 7⟩
    (by decide) (by decide) (Or.inl rfl)

/-- C3: a successful atomic save returns no error for any privilege level, and
afterwards the target carries the original permission bits
(`st_mode & 0o7777`), access time, and modification time, the new content, and
the original owner exactly when the process was privileged (an unprivileged
chown raises `PermissionError`, which is ignored); no temp file remains. -/
theorem atomic_save_success_preserves_metadata (fs : FS) (dest tmp : String)
    (newContent : ℕ) (env : SaveEnv) (st : FileStat)
    (hdest : fsLookup fs dest = some st) (htmp : fsLookup fs tmp = none)
    (hne : tmp ≠ dest) (hs : env.saveOk = true) (hc : env.chmodOk = true)
    (hu : env.utimeOk = true) (hr : env.replaceOk = true) :
    (atomic_save_preserve_metadata fs dest tmp newContent env).2 = none ∧
    fsLookup (atomic_save_preserve_metadata fs dest tmp newContent env).1 dest =
      some ⟨st.mode % 4096,
            if env.privileged then st.uid else env.procUid,
            if env.privileged then st.gid else env.procGid,
            st.atime, st.mtime, newContent⟩ ∧
    fsLookup (atomic_save_preserve_metadata fs dest tmp newContent env).1 tmp = none := by
  obtain ⟨so, co, uo, ro, priv, pu, pg⟩ := env
  cases so
  · exact absurd hs (by simp)
  cases co
  · exact absurd hc (by simp)
  cases uo
  · exact absurd hu (by simp)
  cases ro
  · exact absurd hr (by simp)
  cases priv <;>
    simp_all [atomic_save_preserve_metadata, fsUpdate_cons_self, cleanupTemp, fsSet,
      fsLookup, fsErase_cons_self, fsLookup_fsUpdate_ne, fsLookup_fsUpdate_self]

/-- C3 witness: a successful save by an unprivileged process preserves mode,
atime, and mtime, installs the new content under the process owner, and leaves
no temp file. -/
theorem atomic_save_success_preserves_metadata_witness :
    (atomic_save_preserve_metadata [("a.jpg", ⟨0o644, 33, 33, 10, 20, 7⟩)] "a.jpg"
        ".imgopt_x" 99 ⟨true, true, true, true, false, 1000, 1000⟩).2 = none ∧
    fsLookup (atomic_save_preserve_metadata [("a.jpg", ⟨0o644, 33, 33, 10, 20, 7⟩)]
        "a.jpg" ".imgopt_x" 99 ⟨true, true, true, true, false, 1000, 1000⟩).1 "a.jpg" =
      some ⟨0o644 % 4096, if false then 33 else 1000, if false then 33 else 1000,
            10, 20, 99⟩ ∧
    fsLookup (atomic_save_preserve_metadata [("a.jpg", ⟨0o644, 33, 33, 10, 20, 7⟩)]
        "a.jpg" ".imgopt_x" 99 ⟨true, true, true, true, false, 1000, 1000⟩).1
      ".imgopt_x" = none :=
  atomic_save_success_preserves_metadata [("a.jpg", ⟨0o644, 33, 33, 10, 20, 7⟩)]
    "a.jpg" ".imgopt_x" 99 ⟨true, true, true, true, false, 1000, 1000⟩
    ⟨0o644, 33, 33, 10, 20, 7⟩ (by decide) (by decide) (by decide) rfl rfl rfl rfl

theorem Counters.add_def (a b : Counters) :
    a + b = ⟨a.total + b.total, a.changed + b.changed,
             a.skipped + b.skipped, a.errors + b.errors⟩ := rfl

theorem Counters.add_assoc (a b c : Counters) : a + b + c = a + (b + c) := by
  simp [Counters.add_def, Nat.add_assoc]

theorem fileOutcomeCounters_total (r : Except String String) :
    (fileOutcomeCounters r).total = 1 := by
  cases r with
  | ok s =>
    simp only [fileOutcomeCounters]
    split_ifs <;> rfl
  | error e => rfl

theorem process_tree_total_eq_length (l : List (String × Except String String)) :
    (process_tree l).1.total = l.length := by
  induction l with
  | nil => rfl
  | cons f rest ih =>
    simp [process_tree, Counters.add_def, fileOutcomeCounters_total, ih]
    omega

theorem process_tree_append (xs ys : List (String × Except String String)) :
    process_tree (xs ++ ys) =
      ((process_tree xs).1 + (process_tree ys).1,
       (process_tree xs).2 ++ (process_tree ys).2) := by
  induction xs with
  | nil =>
    simp [process_tree, Counters.add_def]
  | cons f rest ih =>
    simp [process_tree, ih, Counters.add_assoc, List.append_assoc]

/-- C8: an exception while processing one candidate file adds exactly one to
`errors` and emits exactly one `[ERR]` line for it, and every candidate before
and after it is still processed (the totals and outputs of the rest of the run
are untouched). -/
theorem process_tree_error_isolated (xs ys : List (String × Except String String))
    (p e : String) :
    (process_tree (xs ++ (p, Except.error e) :: ys)).1.errors =
      (process_tree xs).1.errors + 1 + (process_tree ys).1.errors ∧
    (process_tree (xs ++ (p, Except.error e) :: ys)).2 =
      (process_tree xs).2 ++ ("[ERR] " ++ p ++ ": " ++ e) :: (process_tree ys).2 ∧
    (process_tree (xs ++ (p, Except.error e) :: ys)).1.total =
      xs.length + 1 + ys.length := by
  have hmid : process_tree ((p, Except.error e) :: ys) =
      ((⟨1, 0, 0, 1⟩ : Counters) + (process_tree ys).1,
       ("[ERR] " ++ p ++ ": " ++ e) :: (process_tree ys).2) := by
    simp [process_tree, fileOutcomeCounters, fileOutcomeErrLines]
  have happ := process_tree_append xs ((p, Except.error e) :: ys)
  rw [hmid] at happ
  refine ⟨?_, ?_, ?_⟩
  · rw [happ]
    simp [Counters.add_def]
    omega
  · rw [happ]
  · rw [happ]
    simp [Counters.add_def, process_tree_total_eq_length]
    omega

theorem charListLe_total (a : List Char) : ∀ b, (charListLe a b || charListLe b a) = true := by
  induction a with
  | nil => intro b; simp [charListLe]
  | cons x xs ih =>
    intro b
    cases b with
    | nil => simp [charListLe]
    | cons y ys =>
      by_cases h1 : x.toNat < y.toNat
      · simp [charListLe, h1]
      · by_cases h2 : y.toNat < x.toNat
        · simp [charListLe, h1, h2]
        · simpa [charListLe, h1, h2] using ih ys

theorem strLe_total (a b : String) (h : ¬ strLe a b = true) : strLe b a = true := by
  have := charListLe_total a.data b.data
  unfold strLe at h ⊢
  rcases Bool.or_eq_true_iff.mp this with hc | hc
  · exact absurd hc h
  · exact hc

theorem mem_insertByName (x z : DirEntry) (l : List DirEntry) :
    z ∈ insertByName x l ↔ z = x ∨ z ∈ l := by
  induction l with
  | nil => simp [insertByName]
  | cons y ys ih =>
    by_cases h : strLe x.name y.name
    · simp [insertByName, h]
    · simp [insertByName, h, ih]
      tauto

theorem mem_sortByName (z : DirEntry) (l : List DirEntry) :
    z ∈ sortByName l ↔ z ∈ l := by
  induction l with
  | nil => simp [sortByName]
  | cons x xs ih =>
    simp [sortByName, mem_insertByName, ih]

theorem sortedByName_insertByName (x : DirEntry) (l : List DirEntry)
    (h : sortedByName l) : sortedByName (insertByName x l) := by
  induction l with
  | nil => exact trivial
  | cons y ys ih =>
    by_cases hxy : strLe x.name y.name = true
    · have hins : insertByName x (y :: ys) = x :: y :: ys := by
        simp [insertByName, hxy]
      rw [hins]
      exact ⟨hxy, h⟩
    · have hyx : strLe y.name x.name = true := strLe_total _ _ hxy
      cases ys with
      | nil =>
        simp [insertByName, hxy, sortedByName]
        exact hyx
      | cons z zs =>
        obtain ⟨h1, h2⟩ := h
        have ihz := ih h2
        by_cases hxz : strLe x.name z.name = true
        · simp [insertByName, hxy, hxz, sortedByName] at ihz ⊢
          exact ⟨hyx, ihz⟩
        · simp [insertByName, hxy, hxz, sortedByName] at ihz ⊢
          exact ⟨h1, ihz⟩

theorem sortedByName_sortByName (l : List DirEntry) : sortedByName (sortByName l) := by
  induction l with
  | nil => exact trivial
  | cons x xs ih => exact sortedByName_insertByName x (sortByName xs) ih

/-- C4 counterexample: pointed at children "2024" and "²²²²" (U+00B2,
superscript two — a character Python's `isdigit` accepts), `iter_year_dirs`
does not return only the four-ASCII-digit subdirectories: the claimed
ASCII-only enumeration drops "²²²²" but the source processes it. -/
theorem iter_year_dirs_not_ascii_only :
    iter_year_dirs [⟨"2024", true⟩, ⟨"²²²²", true⟩] ≠
      iter_year_dirs_ascii_claim [⟨"2024", true⟩, ⟨"²²²²", true⟩] := by
  decide

/-- C4 amended: the processed year folders are exactly the immediate
subdirectories whose name has length 4 and consists of Python-digit
characters (a Unicode superset of the ASCII digits), in ascending code-point
lexicographic order; every other child — "9999abc" in particular — is
ignored. -/
theorem iter_year_dirs_characterization (entries : List DirEntry) :
    sortedByName (iter_year_dirs entries) ∧
    ∀ e : DirEntry, e ∈ iter_year_dirs entries ↔
      (e ∈ entries ∧ e.isDir = true ∧ pyStrIsDigit e.name = true ∧
        e.name.length = 4) := by
  constructor
  · exact sortedByName_sortByName _
  · intro e
    unfold iter_year_dirs
    rw [mem_sortByName]
    simp [List.mem_filter, yearDirFilter]
    tauto

theorem pathName_append_singleton (p : PyPath) (s : String) :
    pathName (p ++ [s]) = s := by
  simp [pathName]

/-- C10: `resolve_uploads_base` always returns what its strict first loop
alone would return: the lenient fallback branches are unreachable because
`path/uploads` and `path/wp-content/uploads` are literally named "uploads". -/
theorem resolve_uploads_base_eq_strict (env : PathEnv) (p : PyPath) :
    resolve_uploads_base env p = resolve_uploads_base_strict env p := by
  unfold resolve_uploads_base resolve_uploads_base_strict
  have h2 : pathName (p ++ ["uploads"]) = "uploads" := pathName_append_singleton p _
  have h3 : pathName (p ++ ["wp-content", "uploads"]) = "uploads" := by
    have hsplit : p ++ ["wp-content", "uploads"] = (p ++ ["wp-content"]) ++ ["uploads"] := by
      simp
    rw [hsplit]
    exact pathName_append_singleton _ _
  by_cases s1 : strictUploadsOk env p = true
  · simp [s1]
  · by_cases s2 : strictUploadsOk env (p ++ ["uploads"]) = true
    · simp [s1, s2]
    · by_cases s3 : strictUploadsOk env (p ++ ["wp-content", "uploads"]) = true
      · simp [s1, s2, s3]
      · have f2 : ¬((env.pexists (p ++ ["uploads"]) && env.isDir (p ++ ["uploads"])) = true) := by
          intro hf
          apply s2
          simp [strictUploadsOk, h2, Bool.and_eq_true] at hf ⊢
          exact hf
        have f3 : ¬((env.pexists (p ++ ["wp-content", "uploads"]) &&
            env.isDir (p ++ ["wp-content", "uploads"])) = true) := by
          intro hf
          apply s3
          simp [strictUploadsOk, h3, Bool.and_eq_true] at hf ⊢
          exact hf
        simp [s1, s2, s3, f2, f3]

/-- C9: the process exit status is 2 exactly on path-resolution failure
(uploads base unresolvable, no year folders, missing uploads base or year
directory in single-year mode); otherwise it is 1 when the whole-run error
count is positive and 0 when it is zero. -/
theorem mainExit_codes (w : World) (a : Args) :
    (∀ pathArg, a.all_uploads = some pathArg →
      ((∀ msg, resolve_uploads_base w.env pathArg = Except.error msg →
          mainExit w a = 2) ∧
       (∀ base, resolve_uploads_base w.env pathArg = Except.ok base →
         ((iter_year_dirs (w.children base) = [] → mainExit w a = 2) ∧
          (iter_year_dirs (w.children base) ≠ [] →
            mainExit w a =
              if 0 < (runYears w (iter_year_dirs (w.children base))).errors
              then 1 else 0))))) ∧
    (a.all_uploads = none →
      ((w.env.pexists a.uploads = false → mainExit w a = 2) ∧
       (w.env.pexists a.uploads = true →
         ((¬(w.env.pexists (a.uploads ++ [a.year]) = true ∧
             w.env.isDir (a.uploads ++ [a.year]) = true) → mainExit w a = 2) ∧
          ((w.env.pexists (a.uploads ++ [a.year]) = true ∧
            w.env.isDir (a.uploads ++ [a.year]) = true) →
            mainExit w a =
              if 0 < (process_tree (w.outcomes a.year)).1.errors
              then 1 else 0))))) := by
  constructor
  · intro pathArg hp
    constructor
    · intro msg hres
      simp [mainExit, hp, hres]
    · intro base hres
      constructor
      · intro hyds
        simp [mainExit, hp, hres, hyds]
      · intro hyds
        simp [mainExit, hp, hres, hyds]
        rcases Nat.eq_zero_or_pos (runYears w (iter_year_dirs (w.children base))).errors
          with h0 | h0
        · simp [h0]
        · simp [h0, Nat.pos_iff_ne_zero.mp h0]
  · intro hp
    constructor
    · intro hbase
      simp [mainExit, hp, hbase]
    · intro hbase
      constructor
      · intro htarget
        rcases Decidable.not_and_iff_or_not.mp htarget with hte | htd
        · have hte2 : w.env.pexists (a.uploads ++ [a.year]) = false :=
            Bool.eq_false_iff.mpr hte
          simp [mainExit, hp, hbase, hte2]
        · have htd2 : w.env.isDir (a.uploads ++ [a.year]) = false :=
            Bool.eq_false_iff.mpr htd
          simp [mainExit, hp, hbase, htd2]
      · intro htarget
        obtain ⟨hte, htd⟩ := htarget
        simp [mainExit, hp, hbase, hte, htd]
        rcases Nat.eq_zero_or_pos (process_tree (w.outcomes a.year)).1.errors with h0 | h0
        · simp [h0]
        · simp [h0, Nat.pos_iff_ne_zero.mp h0]

/-- C9 witness: with an unresolvable `--all-uploads` path the exit status is
2. -/
theorem mainExit_codes_witness :
    mainExit ⟨⟨fun _ => false, fun _ => false⟩, fun _ => [], fun _ => []⟩
      ⟨some ["site"], "", []⟩ = 2 :=
  ((mainExit_codes ⟨⟨fun _ => false, fun _ => false⟩, fun _ => [], fun _ => []⟩
      ⟨some ["site"], "", []⟩).1 ["site"] rfl).1
    "Could not find an uploads directory" rfl
